import Mathlib

/-!
# Verification of the celery-exporter event-to-metric core

A shallow embedding, in Lean 4, of the metric-updating core of the
`celery-exporter` repository (`src/exporter.py` and `src/cli.py`), together
with proofs about the claims of its specification.

Modelling conventions:
* Prometheus metric families are modelled as functions from a label tuple to
  `Option` of the series value; `none` means the series has never been
  touched, `some v` means the series exists and currently holds `v`.
  Counters hold `ℕ` (they are only ever incremented by `1` or `0`), gauges
  hold `ℤ`, histograms are modelled as the list of observed values.
* Timestamps and durations are modelled as `ℚ`.
* The `celery.events.state.State` object is an external library; the
  exporter's handlers are therefore parameterised by the merged `Task`
  (respectively worker) record that `self.state.event(event)` produces,
  exactly the data the handler body reads.
-/

set_option autoImplicit false

namespace CeleryExporter

/-! ## Exception-class extraction (`get_exception_class`, exporter.py:244-254)

The source compiles `exception_pattern = re.compile(r"^(\w+)\(")` and
`get_exception_class` returns the first group on a match and a fixed
sentinel string otherwise.  Because `(` is not a word character, the
anchored greedy match `^(\w+)\(` succeeds exactly when the maximal leading
run of word characters is nonempty and is immediately followed by `(`; the
group is then that maximal run.  We model `\w` by the ASCII word characters
`[A-Za-z0-9_]`. -/

/-- A word character as matched by the regex class `\w` (ASCII range). -/
def isWordChar (c : Char) : Bool :=
  c.isAlphanum || c = '_'

/-- The sentinel label returned when `exception_pattern` does not match
(exporter.py:253). -/
def failedToParseSentinel : String :=
  "__PrometheusExporterFailedToParseExceptionName"

/-- `get_exception_class` (exporter.py:247-254): match `^(\w+)\(` against the
rendered exception string; on success return the identifier group, otherwise
return the fixed sentinel.  Total by construction: it never fails. -/
def get_exception_class (exception_name : String) : String :=
  match exception_name.data.takeWhile isWordChar,
      exception_name.data.dropWhile isWordChar with
  | [], _ => failedToParseSentinel
  | _ :: _, [] => failedToParseSentinel
  | c0 :: w0, c :: _ =>
    if c = '(' then String.mk (c0 :: w0) else failedToParseSentinel

/-- The shape `^(\w+)\(`: the character list splits as a nonempty run of
word characters followed by `(`. -/
def MatchesExcShape (cs : List Char) : Prop :=
  ∃ w rest, cs = w ++ '(' :: rest ∧ w ≠ [] ∧ ∀ c ∈ w, isWordChar c

/-! ## Metric data model (`Exporter.__init__`, exporter.py:18-108)

A Prometheus metric family keyed by a label tuple.  The eight task-lifecycle
counters share one map keyed by the counter's dict key (`"task-sent"` …
`"task-retried"`); the label dict holds `name`, `hostname` and, only for the
`task-failed` counter, an `exception` entry — mirrored here by an
`Option String` field that is `none` exactly when the dict has no
`exception` key. -/

structure Labels where
  name : String
  hostname : String
  exception : Option String := none
deriving DecidableEq, Repr

/-- The `{name, hostname}` label tuple of the two histograms. -/
structure TaskLabels where
  name : String
  hostname : String
deriving DecidableEq, Repr

/-- The merged task record returned by `self.state.tasks.get(event["uuid"])`
after `self.state.event(event)`; the merge itself lives in the external
`celery.events.state.State` library, so the handlers below are parameterised
by this record.  `sent` is `none` when the task has no sent timestamp. -/
structure Task where
  name : String
  hostname : String
  state : String
  exception : String
  sent : Option ℚ
  runtime : ℚ

/-- The merged worker record (`self.state.event(event)[0][0]`), again produced
by the external celery `State`.  `active` is `none` when absent
(`worker_state.active or 0`). -/
structure WorkerState where
  alive : Bool
  active : Option ℤ

/-- The keys of `self.state_counters`, in dict insertion order
(exporter.py:20-76). -/
def taskEventTypes : List String :=
  ["task-sent", "task-received", "task-started", "task-succeeded",
   "task-failed", "task-rejected", "task-revoked", "task-retried"]

/-- The eight task-lifecycle counter families, keyed by counter dict key. -/
abbrev CounterMap : Type := String → Labels → Option ℕ

/-- A gauge family keyed by a single string label (`hostname` or `queue`). -/
abbrev GaugeMap : Type := String → Option ℤ

/-- A histogram family: per label tuple, the list of observed values. -/
abbrev HistogramMap : Type := TaskLabels → List ℚ

/-- All instruments registered in `Exporter.__init__`. -/
structure Metrics where
  state_counters : CounterMap
  celery_worker_up : GaugeMap
  worker_tasks_active : GaugeMap
  celery_task_runtime : HistogramMap
  celery_task_queuetime : HistogramMap
  queue_length : GaugeMap

/-- The freshly constructed registry: no series exists yet. -/
def Metrics.init : Metrics where
  state_counters := fun _ _ => none
  celery_worker_up := fun _ => none
  worker_tasks_active := fun _ => none
  celery_task_runtime := fun _ => []
  celery_task_queuetime := fun _ => []
  queue_length := fun _ => none

/-- `counter.labels(**l).inc(d)` on the family stored at key
`counter_name`: the series for `l` is created at `0` if absent, then raised
by `d`. -/
def counterInc (cs : CounterMap) (counter_name : String) (l : Labels)
    (d : ℕ) : CounterMap :=
  fun k =>
    if k = counter_name then
      fun l2 => if l2 = l then some ((cs counter_name l).getD 0 + d)
                else cs counter_name l2
    else cs k

/-- `gauge.labels(key).set(v)`. -/
def gaugeSet (g : GaugeMap) (key : String) (v : ℤ) : GaugeMap :=
  fun k => if k = key then some v else g k

/-- `histogram.labels(**l).observe(v)`. -/
def histObserve (h : HistogramMap) (l : TaskLabels) (v : ℚ) : HistogramMap :=
  fun l2 => if l2 = l then h l ++ [v] else h l2

/-- Python truthiness of `task.sent` (`if task.sent:`): `None` and `0` are
falsy, every other timestamp is truthy. -/
def pyTruthy : Option ℚ → Bool
  | none => false
  | some x => if x = 0 then false else true

/-! ## `Exporter.track_task_event` (exporter.py:110-159) -/

/-- The label dict `_labels` built for counter `counter_name` in one
iteration of the loop (exporter.py:120-127): a copy of
`{name, hostname}`, with an `exception` entry added only for the
`task-failed` counter — the parsed exception class when that counter is the
matching one, the empty string otherwise. -/
def counterLoopLabels (counter_name event_type : String) (task : Task) :
    Labels :=
  let labels : Labels := { name := task.name, hostname := task.hostname }
  if counter_name = "task-failed" then
    if counter_name = event_type then
      { labels with exception := some (get_exception_class task.exception) }
    else
      { labels with exception := some "" }
  else labels

/-- One iteration of the counter loop (exporter.py:120-135): the counter
matching the event type is incremented by one, every other counter by
zero. -/
def counterLoopStep (event_type : String) (task : Task) (cs : CounterMap)
    (counter_name : String) : CounterMap :=
  let l := counterLoopLabels counter_name event_type task
  if counter_name = event_type then
    counterInc cs counter_name l 1
  else
    counterInc cs counter_name l 0

/-- The full `for counter_name, counter in self.state_counters.items()` loop
(exporter.py:120-135), iterating the counters in dict order. -/
def counterLoop (event_type : String) (task : Task) (cs : CounterMap) :
    CounterMap :=
  taskEventTypes.foldl (counterLoopStep event_type task) cs

/-- `Exporter.track_task_event` (exporter.py:110-159), parameterised by the
merged `Task` and by the wall-clock time `now` (`time.time()`):
run the counter loop; for `task-started` with a truthy sent timestamp
observe `now - task.sent` into the queue-time histogram; for
`task-succeeded` observe `task.runtime` into the runtime histogram. -/
def track_task_event (event_type : String) (task : Task) (now : ℚ)
    (m : Metrics) : Metrics :=
  let m1 := { m with
    state_counters := counterLoop event_type task m.state_counters }
  let labels : TaskLabels := ⟨task.name, task.hostname⟩
  let m2 :=
    if event_type = "task-started" then
      if pyTruthy task.sent then
        { m1 with celery_task_queuetime :=
            histObserve m1.celery_task_queuetime labels (now - task.sent.getD 0) }
      else m1
    else m1
  if event_type = "task-succeeded" then
    { m2 with celery_task_runtime :=
        histObserve m2.celery_task_runtime labels task.runtime }
  else m2

/-- `Exporter.track_worker_status` (exporter.py:161-166). -/
def track_worker_status (hostname : String) (is_online : Bool)
    (m : Metrics) : Metrics :=
  let value : ℤ := if is_online then 1 else 0
  { m with celery_worker_up := gaugeSet m.celery_worker_up hostname value }

/-- `Exporter.track_worker_heartbeat` (exporter.py:168-181), parameterised by
the merged worker record. -/
def track_worker_heartbeat (hostname : String) (worker_state : WorkerState)
    (m : Metrics) : Metrics :=
  let active := worker_state.active.getD 0
  let up : ℤ := if worker_state.alive then 1 else 0
  let m1 := { m with
    celery_worker_up := gaugeSet m.celery_worker_up hostname up }
  { m1 with
    worker_tasks_active := gaugeSet m1.worker_tasks_active hostname active }

/-! ## Evaluation of the counter loop -/

/-- The effect of one loop iteration on its own counter family: the series
for the computed label dict is created (at `0` if absent) and raised by one
for the matching counter, by zero for the others. -/
def counterAfterStep (event_type : String) (task : Task)
    (v : Labels → Option ℕ) (counter_name : String) : Labels → Option ℕ :=
  let l := counterLoopLabels counter_name event_type task
  let d : ℕ := if counter_name = event_type then 1 else 0
  fun l2 => if l2 = l then some ((v l).getD 0 + d) else v l2

/-- The exception-label entry the specification prescribes for counter `k`
of the family when the processed event has type `t`: only the `task-failed`
counter carries one — the parsed exception class when it is the matching
counter, the empty string when it is touched as a non-matching counter. -/
def claimExcLabel (k t : String) (task : Task) : Option String :=
  if k = "task-failed" then
    if t = "task-failed" then some (get_exception_class task.exception)
    else some ""
  else none

/-! ## Event dispatch (`Exporter.run`, exporter.py:214-227)

`Exporter.run` registers a handler for `worker-heartbeat`, `worker-online`,
`worker-offline` and for each of the eight counter keys, then hands the
`handlers` dict to `self.app.events.Receiver`.  The by-type lookup itself is
performed inside the external celery `Receiver`. -/

/-- An incoming event together with the results of the external celery
`State` merge for it (the merged task record, the merged worker record) and
the wall-clock time at which it is handled. -/
structure EventData where
  type : String
  hostname : String
  mergedTask : Task
  mergedWorker : WorkerState
  now : ℚ

/-- The keys of the `handlers` dict built in `Exporter.run`
(exporter.py:214-220): the three worker-event handlers plus one entry per
counter key. -/
def handlerKeys : List String :=
  ["worker-heartbeat", "worker-online", "worker-offline"] ++ taskEventTypes

/-- Modelled from the spec: the by-type handler lookup of the event
dispatcher lives in the external celery `Receiver`, not in this repository;
per the spec it "looks up a handler by `event.type`; if none exists, logs a
warning and performs no metric update".  The handlers themselves are the
ones registered by `Exporter.run` (exporter.py:214-220).  The returned
`Bool` is `true` exactly when the no-handler warning is logged. -/
def dispatch (e : EventData) (m : Metrics) : Metrics × Bool :=
  if e.type = "worker-heartbeat" then
    (track_worker_heartbeat e.hostname e.mergedWorker m, false)
  else if e.type = "worker-online" then
    (track_worker_status e.hostname true m, false)
  else if e.type = "worker-offline" then
    (track_worker_status e.hostname false m, false)
  else if e.type ∈ taskEventTypes then
    (track_task_event e.type e.mergedTask e.now m, false)
  else (m, true)

/-- Folding a whole stream of events through the dispatcher. -/
def processEvents (es : List EventData) (m : Metrics) : Metrics :=
  es.foldl (fun acc e => (dispatch e acc).1) m

/-- Pointwise ordering of counter families: no existing series loses value
(and no series disappears). -/
def counterLe (a b : CounterMap) : Prop :=
  ∀ k l v, a k l = some v → ∃ w, b k l = some w ∧ v ≤ w

/-! ## The consumption loop (`Exporter.run`, exporter.py:224-241) -/

/-- How one pass of the `while True` body ends: `recv.capture` either
returns normally, or raises a shutdown signal (`KeyboardInterrupt` /
`SystemExit`), or raises some other `Exception`. -/
inductive RecvOutcome where
  | completed
  | keyboardInterrupt
  | systemExit
  | failure
deriving DecidableEq, Repr

/-- The externally observable result of one pass of the loop body. -/
inductive LoopStep where
  /-- an exception propagates out of the loop and ends the process -/
  | terminated (e : RecvOutcome)
  /-- the pass fell through to `time.sleep(self.retry_interval)` and the
  loop re-enters the receive phase with a fresh `Receiver` -/
  | continueAfterSleep (secs : ℕ)
deriving DecidableEq, Repr

/-- One pass of the `while True` body of `Exporter.run`
(exporter.py:224-241): `KeyboardInterrupt` and `SystemExit` are re-raised
at once; any other exception is logged and re-raised iff
`self.retry_interval == 0`, otherwise the body falls through to
`time.sleep(self.retry_interval)` and the loop continues. -/
def consumeStep (retry_interval : ℕ) (o : RecvOutcome) : LoopStep :=
  match o with
  | .completed => .continueAfterSleep retry_interval
  | .keyboardInterrupt => .terminated .keyboardInterrupt
  | .systemExit => .terminated .systemExit
  | .failure =>
    if retry_interval = 0 then .terminated .failure
    else .continueAfterSleep retry_interval

/-! ## `QueueLengthMonitor` (exporter.py:257-306)

One sampling cycle queries `llen` for every configured queue plus
`hvals('unacked')` in a pipeline, decodes each unacked entry (a JSON array
whose last element names the originating queue), tallies a
`collections.Counter`, adds the raw lengths, and publishes every tallied
queue to the `celery_queue_length` gauge.  Decoded unacked entries are
modelled as the decoded JSON array (reduced to its element spine with the
queue tag as last element); `data[-1]` on an empty array raises, which the
cycle surfaces as `none`. -/

/-- A `collections.Counter` over queue names: an association list with at
most one entry per key. -/
abbrev QueueTally : Type := List (String × ℕ)

/-- `lengths[queue] += d` on a `collections.Counter`: a missing key is
created at `0` first. -/
def tallyAdd (c : QueueTally) (key : String) (d : ℕ) : QueueTally :=
  match c with
  | [] => [(key, d)]
  | (k, v) :: rest =>
    if k = key then (k, v + d) :: rest else (k, v) :: tallyAdd rest key d

/-- Lookup in a `QueueTally`. -/
def tallyGet (c : QueueTally) (key : String) : Option ℕ :=
  match c with
  | [] => none
  | (k, v) :: rest => if k = key then some v else tallyGet rest key

/-- The `for task in unacked` loop (exporter.py:284-287): decode each entry
and count it under its last element.  `none` models the exception raised
when an entry decodes to an empty array (`data[-1]` out of range). -/
def tallyUnacked (unacked : List (List String)) (c : QueueTally) :
    Option QueueTally :=
  match unacked with
  | [] => some c
  | data :: rest =>
    match data.getLast? with
    | some queue => tallyUnacked rest (tallyAdd c queue 1)
    | none => none

/-- One successful pass of the sampling computation (exporter.py:270-293,
up to the gauge updates): tally the unacked entries, then add the raw
`llen` of each configured queue (`for llen, queue in zip(result,
self.queues)`).  `llen q` is the raw length the pipeline returned for
configured queue `q`. -/
def queueLengthCycle (queues : List String) (llen : String → ℕ)
    (unacked : List (List String)) : Option QueueTally :=
  match tallyUnacked unacked [] with
  | none => none
  | some c => some (queues.foldl (fun acc q => tallyAdd acc q (llen q)) c)

/-- The publishing loop (exporter.py:292-293): one `gauge.labels(queue)
.set(length)` per tallied queue. -/
def publishLengths (g : GaugeMap) (ls : QueueTally) : GaugeMap :=
  ls.foldl (fun acc p => gaugeSet acc p.1 (p.2 : ℤ)) g

/-- The raw data one sampling cycle observes from redis. -/
structure CycleData where
  llen : String → ℕ
  unacked : List (List String)

/-- One iteration of the `while self.running` loop of
`QueueLengthMonitor.run` (exporter.py:268-303).  `input` is `none` when the
connection/pipeline phase itself raises.  Returns the gauge family after
the iteration, the seconds slept (`self.interval` on success, the fixed `1`
of the `except` branch on failure), and whether the iteration failed. -/
def monitorCycle (queues : List String) (interval : ℕ) (g : GaugeMap)
    (input : Option CycleData) : GaugeMap × ℕ × Bool :=
  match input with
  | none => (g, 1, true)
  | some data =>
    match queueLengthCycle queues data.llen data.unacked with
    | none => (g, 1, true)
    | some ls => (publishLengths g ls, interval, false)

/-- The `while self.running` loop of `QueueLengthMonitor.run` over a finite
schedule of cycles.  Each list element carries the value of the polled
`self.running` flag at the top of the loop and the data (or connection
failure) that cycle would observe; the loop exits as soon as the flag is
seen `false`.  Returns the final gauge family and the per-iteration sleep
trace. -/
def monitorRun (queues : List String) (interval : ℕ) (g : GaugeMap) :
    List (Bool × Option CycleData) → GaugeMap × List ℕ
  | [] => (g, [])
  | (running, input) :: rest =>
    if running then
      let step := monitorCycle queues interval g input
      let tail := monitorRun queues interval step.1 rest
      (tail.1, step.2.1 :: tail.2)
    else (g, [])

/-- The keys (queue names) currently present in a tally. -/
def tallyKeys (c : QueueTally) : List String :=
  c.map Prod.fst

/-- The number of unacked entries whose decoded last element names `q` —
the specification's "tallied unacknowledged count for that queue". -/
def unackedCount (unacked : List (List String)) (q : String) : ℕ :=
  unacked.countP (fun d => d.getLast? == some q)

/-- Gauge-independent classification of one scheduled sampling cycle: the
seconds the loop sleeps after it — the fixed `1` of the `except` branch
after any failure, the configured interval after a success. -/
def cycleSleep (queues : List String) (interval : ℕ) :
    Option CycleData → ℕ
  | none => 1
  | some data =>
    match queueLengthCycle queues data.llen data.unacked with
    | none => 1
    | some _ => interval

-- THEOREMS-START

theorem takeWhile_word_append (w rest : List Char)
    (hw : ∀ c ∈ w, isWordChar c) :
    (w ++ '(' :: rest).takeWhile isWordChar = w := by
  induction w with
  | nil => simp [List.takeWhile, isWordChar]
  | cons c cs ih =>
    have hc : isWordChar c := hw c (by simp)
    have hcs : ∀ x ∈ cs, isWordChar x := fun x hx => hw x (by simp [hx])
    simp [List.takeWhile, hc, ih hcs]

theorem dropWhile_word_append (w rest : List Char)
    (hw : ∀ c ∈ w, isWordChar c) :
    (w ++ '(' :: rest).dropWhile isWordChar = '(' :: rest := by
  induction w with
  | nil => simp [List.dropWhile, isWordChar]
  | cons c cs ih =>
    have hc : isWordChar c := hw c (by simp)
    have hcs : ∀ x ∈ cs, isWordChar x := fun x hx => hw x (by simp [hx])
    simp [List.dropWhile, hc, ih hcs]

/-- On a matching input, the function returns the identifier group. -/
theorem get_exception_class_of_match (s : String) (w rest : List Char)
    (hs : s.data = w ++ '(' :: rest) (hne : w ≠ [])
    (hw : ∀ c ∈ w, isWordChar c) :
    get_exception_class s = String.mk w := by
  unfold get_exception_class
  rw [hs, takeWhile_word_append w rest hw, dropWhile_word_append w rest hw]
  cases w with
  | nil => exact absurd rfl hne
  | cons c cs => simp

/-- On a non-matching input, the function returns the sentinel. -/
theorem get_exception_class_of_no_match (s : String)
    (h : ¬ MatchesExcShape s.data) :
    get_exception_class s = failedToParseSentinel := by
  unfold get_exception_class
  have hsplit := List.takeWhile_append_dropWhile (p := isWordChar) (l := s.data)
  have hword : ∀ c ∈ s.data.takeWhile isWordChar, isWordChar c :=
    fun c hc => List.mem_takeWhile_imp hc
  cases htw : s.data.takeWhile isWordChar with
  | nil => rfl
  | cons c cs =>
    cases hdw : s.data.dropWhile isWordChar with
    | nil => rfl
    | cons d ds =>
      by_cases hd : d = '('
      · exfalso
        apply h
        refine ⟨c :: cs, ds, ?_, by simp, ?_⟩
        · rw [← hsplit, htw, hdw, hd]
        · rw [← htw]; exact hword
      · simp [hd]

theorem counterLoopStep_self (event_type : String) (task : Task)
    (cs : CounterMap) (k : String) :
    counterLoopStep event_type task cs k k =
      counterAfterStep event_type task (cs k) k := by
  unfold counterLoopStep counterAfterStep counterInc
  by_cases h : k = event_type <;> simp [h]

theorem counterLoopStep_ne (event_type : String) (task : Task)
    (cs : CounterMap) (k k2 : String) (h : k2 ≠ k) :
    counterLoopStep event_type task cs k k2 = cs k2 := by
  unfold counterLoopStep counterInc
  by_cases hk : k = event_type
  · subst hk
    simp [h]
  · simp [hk, h]

theorem counterFold_notMem (event_type : String) (task : Task)
    (L : List String) : ∀ (cs : CounterMap) (k : String), k ∉ L →
    L.foldl (counterLoopStep event_type task) cs k = cs k := by
  induction L with
  | nil => intro cs k _; rfl
  | cons a L ih =>
    intro cs k hk
    have hka : k ≠ a := fun h => hk (h ▸ List.mem_cons_self a L)
    have hkL : k ∉ L := fun h => hk (List.mem_cons_of_mem a h)
    simp only [List.foldl_cons]
    rw [ih _ _ hkL, counterLoopStep_ne _ _ _ _ _ hka]

theorem counterFold_mem (event_type : String) (task : Task)
    (L : List String) : L.Nodup → ∀ (cs : CounterMap) (k : String), k ∈ L →
    L.foldl (counterLoopStep event_type task) cs k =
      counterAfterStep event_type task (cs k) k := by
  induction L with
  | nil => intro _ cs k hk; cases hk
  | cons a L ih =>
    intro hnd cs k hk
    simp only [List.foldl_cons]
    by_cases hka : k = a
    · subst hka
      have hkL : k ∉ L := (List.nodup_cons.mp hnd).1
      rw [counterFold_notMem _ _ _ _ _ hkL, counterLoopStep_self]
    · have hkL : k ∈ L := by
        rcases List.mem_cons.mp hk with h | h
        · exact absurd h hka
        · exact h
      rw [ih (List.nodup_cons.mp hnd).2 _ _ hkL,
        counterLoopStep_ne _ _ _ _ _ hka]

theorem counterLoop_eval (event_type : String) (task : Task)
    (cs : CounterMap) (k : String) (hk : k ∈ taskEventTypes) :
    counterLoop event_type task cs k =
      counterAfterStep event_type task (cs k) k :=
  counterFold_mem _ _ _ (by decide) _ _ hk

theorem track_task_event_state_counters (event_type : String) (task : Task)
    (now : ℚ) (m : Metrics) :
    (track_task_event event_type task now m).state_counters =
      counterLoop event_type task m.state_counters := by
  unfold track_task_event
  by_cases h1 : event_type = "task-started" <;>
    by_cases h2 : event_type = "task-succeeded" <;>
      cases hp : pyTruthy task.sent <;> simp [h1, h2, hp]

theorem counterLoopLabels_eq_claim (k t : String) (task : Task) :
    counterLoopLabels k t task =
      ⟨task.name, task.hostname, claimExcLabel k t task⟩ := by
  unfold counterLoopLabels claimExcLabel
  by_cases h1 : k = "task-failed"
  · subst h1
    by_cases h2 : "task-failed" = t
    · simp [h2]
    · have h3 : ¬ t = "task-failed" := fun h => h2 h.symm
      simp [h2, h3]
  · simp [h1]

/-- **C1**: for every task-lifecycle event processed by `track_task_event`,
every counter `k` of the eight-counter family is updated under the label
tuple `{name, hostname}` — extended, for the `task-failed` counter only, by
an exception label that is `get_exception_class task.exception` when
`task-failed` is the matching counter and `""` when it is touched as a
non-matching one: the counter whose key equals the event type is
incremented by one, every other counter by zero, and no other label tuple
of any family member changes. -/
theorem c1_counter_family_update (t : String) (_ht : t ∈ taskEventTypes)
    (task : Task) (now : ℚ) (m : Metrics) (k : String)
    (hk : k ∈ taskEventTypes) :
    ((track_task_event t task now m).state_counters k
        ⟨task.name, task.hostname, claimExcLabel k t task⟩ =
      some ((m.state_counters k
          ⟨task.name, task.hostname, claimExcLabel k t task⟩).getD 0 +
        (if k = t then 1 else 0))) ∧
    ∀ l2, l2 ≠ (⟨task.name, task.hostname, claimExcLabel k t task⟩ : Labels) →
      (track_task_event t task now m).state_counters k l2 =
        m.state_counters k l2 := by
  have hc : (track_task_event t task now m).state_counters k =
      counterAfterStep t task (m.state_counters k) k := by
    rw [track_task_event_state_counters]
    exact counterLoop_eval t task m.state_counters k hk
  constructor
  · rw [hc]
    unfold counterAfterStep
    rw [counterLoopLabels_eq_claim]
    simp
  · intro l2 hl2
    rw [hc]
    unfold counterAfterStep
    rw [counterLoopLabels_eq_claim]
    simp [hl2]

/-- Witness for C1: a concrete `task-failed` event on a fresh registry
creates the matching series at `1` with the parsed exception class, and
touches the non-matching `task-sent` series at `0`. -/
theorem c1_counter_family_update_witness :
    ((track_task_event "task-failed"
          ⟨"div", "host1", "FAILURE", "ValueError(boom)", none, 0⟩ 5
          Metrics.init).state_counters "task-failed"
        ⟨"div", "host1", some "ValueError"⟩ = some 1) ∧
    ((track_task_event "task-failed"
          ⟨"div", "host1", "FAILURE", "ValueError(boom)", none, 0⟩ 5
          Metrics.init).state_counters "task-sent"
        ⟨"div", "host1", none⟩ = some 0) := by
  have h1 := (c1_counter_family_update "task-failed" (by decide)
      ⟨"div", "host1", "FAILURE", "ValueError(boom)", none, 0⟩ 5 Metrics.init
      "task-failed" (by decide)).1
  have h2 := (c1_counter_family_update "task-failed" (by decide)
      ⟨"div", "host1", "FAILURE", "ValueError(boom)", none, 0⟩ 5 Metrics.init
      "task-sent" (by decide)).1
  have he : claimExcLabel "task-failed" "task-failed"
      ⟨"div", "host1", "FAILURE", "ValueError(boom)", none, 0⟩ =
      some "ValueError" := by decide
  have hs : claimExcLabel "task-sent" "task-failed"
      ⟨"div", "host1", "FAILURE", "ValueError(boom)", none, 0⟩ = none := by
    decide
  rw [he] at h1
  rw [hs] at h2
  refine ⟨?_, ?_⟩
  · simpa [Metrics.init] using h1
  · simpa [Metrics.init] using h2

/-- **C2**: `get_exception_class` is total (it never raises, by
construction): on any string that starts with a nonempty run of word
characters immediately followed by `(` it returns that run, and on every
other string — the empty string included — it returns the fixed
sentinel. -/
theorem c2_get_exception_class_spec (s : String) :
    (∀ w rest, s.data = w ++ '(' :: rest → w ≠ [] →
        (∀ c ∈ w, isWordChar c) → get_exception_class s = String.mk w) ∧
    (¬ MatchesExcShape s.data →
      get_exception_class s = failedToParseSentinel) ∧
    get_exception_class "" = failedToParseSentinel := by
  refine ⟨?_, get_exception_class_of_no_match s, rfl⟩
  intro w rest hs hne hw
  exact get_exception_class_of_match s w rest hs hne hw

/-- Witness for C2 at the spec's own example and at a non-matching input. -/
theorem c2_get_exception_class_spec_witness :
    get_exception_class "ValueError(...)" = "ValueError" ∧
    get_exception_class "no leading identifier" = failedToParseSentinel ∧
    get_exception_class "" = failedToParseSentinel := by
  refine ⟨?_, ?_, (c2_get_exception_class_spec "").2.2⟩
  · have h := (c2_get_exception_class_spec "ValueError(...)").1
      "ValueError".data "...)".data (by decide) (by decide) (by decide)
    exact h
  · refine (c2_get_exception_class_spec "no leading identifier").2.1 ?_
    rintro ⟨w, rest, hs, -, -⟩
    have hmem : '(' ∈ "no leading identifier".data := by
      rw [hs]; simp
    exact absurd hmem (by decide)

/-! ### The queue-time and runtime histogram effects of
`track_task_event` -/

theorem track_task_event_queuetime (event_type : String) (task : Task)
    (now : ℚ) (m : Metrics) :
    (track_task_event event_type task now m).celery_task_queuetime =
      if event_type = "task-started" ∧ pyTruthy task.sent then
        histObserve m.celery_task_queuetime ⟨task.name, task.hostname⟩
          (now - task.sent.getD 0)
      else m.celery_task_queuetime := by
  unfold track_task_event
  by_cases h1 : event_type = "task-started" <;>
    by_cases h2 : event_type = "task-succeeded" <;>
      cases hp : pyTruthy task.sent <;> simp [h1, h2, hp]

/-- **C10**: the queue-time observation is gated on Python truthiness of
`task.sent`, not on mere presence: for a `task-started` event whose merged
task has `sent` equal to `None` or to the recorded timestamp `0`, the
queue-time histogram is left completely unchanged. -/
theorem c10_queuetime_gated_on_truthiness (task : Task) (now : ℚ)
    (m : Metrics) (hsent : task.sent = none ∨ task.sent = some 0) :
    (track_task_event "task-started" task now m).celery_task_queuetime =
      m.celery_task_queuetime := by
  have hp : pyTruthy task.sent = false := by
    rcases hsent with h | h <;> simp [h, pyTruthy]
  rw [track_task_event_queuetime]
  simp [hp]

/-- Witness for C10: a `task-started` event with `sent = 0` on a fresh
registry leaves every queue-time series nonexistent. -/
theorem c10_queuetime_gated_on_truthiness_witness :
    (track_task_event "task-started" ⟨"t1", "w1", "STARTED", "", some 0, 0⟩
        7 Metrics.init).celery_task_queuetime ⟨"t1", "w1"⟩ = [] := by
  have h := c10_queuetime_gated_on_truthiness
      ⟨"t1", "w1", "STARTED", "", some 0, 0⟩ 7 Metrics.init (Or.inr rfl)
  rw [h]
  rfl

/-- Counterexample to **C8** as stated: a `task-started` event whose merged
task does carry a recorded sent timestamp — the value `0`, so `sent` is
not absent — produces no queue-time observation at all. -/
theorem c8_counterexample_sent_zero :
    ((⟨"t1", "w1", "STARTED", "", some 0, 0⟩ : Task).sent ≠ none) ∧
    (track_task_event "task-started" ⟨"t1", "w1", "STARTED", "", some 0, 0⟩
        7 Metrics.init).celery_task_queuetime ⟨"t1", "w1"⟩ = [] := by
  refine ⟨by decide, ?_⟩
  rw [track_task_event_queuetime]
  simp [pyTruthy, Metrics.init]

/-- **C8 (amended)**: for a `task-started` event whose merged task has a
truthy (nonzero) recorded sent timestamp `t0`, `track_task_event` appends
exactly one observation, `now - t0`, to the queue-time histogram series for
`{name, hostname}` and changes no other series of it; for every other event
type, and for a `task-started` event whose sent timestamp is absent or
falsy, the queue-time histogram is unchanged. -/
theorem c8_queuetime_observation (event_type : String) (task : Task)
    (now t0 : ℚ) (m : Metrics) :
    (event_type = "task-started" → task.sent = some t0 → t0 ≠ 0 →
      ((track_task_event event_type task now m).celery_task_queuetime
          ⟨task.name, task.hostname⟩ =
        m.celery_task_queuetime ⟨task.name, task.hostname⟩ ++ [now - t0]) ∧
      ∀ l, l ≠ (⟨task.name, task.hostname⟩ : TaskLabels) →
        (track_task_event event_type task now m).celery_task_queuetime l =
          m.celery_task_queuetime l) ∧
    ((event_type ≠ "task-started" ∨ pyTruthy task.sent = false) →
      (track_task_event event_type task now m).celery_task_queuetime =
        m.celery_task_queuetime) := by
  constructor
  · intro ht hsent ht0
    have hp : pyTruthy task.sent = true := by
      simp [hsent, pyTruthy, ht0]
    rw [track_task_event_queuetime]
    simp only [ht, hp, and_self, if_true, true_and]
    constructor
    · unfold histObserve
      simp [hsent]
    · intro l hl
      unfold histObserve
      simp [hl]
  · intro h
    rw [track_task_event_queuetime]
    rcases h with h | h <;> simp [h]

/-- Witness for the amended C8: `task-started` with `sent = 2` at `now = 5`
observes exactly `[3]`; `task-succeeded` leaves the series empty. -/
theorem c8_queuetime_observation_witness :
    ((track_task_event "task-started" ⟨"t1", "w1", "STARTED", "", some 2, 0⟩
        5 Metrics.init).celery_task_queuetime ⟨"t1", "w1"⟩ = [3]) ∧
    ((track_task_event "task-succeeded"
        ⟨"t1", "w1", "SUCCESS", "", some 2, 9⟩ 5
        Metrics.init).celery_task_queuetime ⟨"t1", "w1"⟩ = []) := by
  constructor
  · have h := ((c8_queuetime_observation "task-started"
        ⟨"t1", "w1", "STARTED", "", some 2, 0⟩ 5 2 Metrics.init).1
        rfl rfl (by norm_num)).1
    rw [h]
    norm_num [Metrics.init]
  · have h := (c8_queuetime_observation "task-succeeded"
        ⟨"t1", "w1", "SUCCESS", "", some 2, 9⟩ 5 2 Metrics.init).2
        (Or.inl (by decide))
    rw [h]
    rfl

/-- **C4**: in one pass of the consumption loop, `KeyboardInterrupt` and
`SystemExit` are re-raised immediately — never entering the retry path,
whatever the configured interval; any other exception is re-raised (ending
the process) when the retry interval is `0`, and with interval `N > 0` the
pass sleeps `N` seconds and re-enters the receive phase. -/
theorem c4_consume_retry_policy (ri : ℕ) :
    consumeStep ri .keyboardInterrupt = .terminated .keyboardInterrupt ∧
    consumeStep ri .systemExit = .terminated .systemExit ∧
    consumeStep 0 .failure = .terminated .failure ∧
    (0 < ri → consumeStep ri .failure = .continueAfterSleep ri) := by
  refine ⟨rfl, rfl, rfl, fun h => ?_⟩
  unfold consumeStep
  simp [Nat.pos_iff_ne_zero.mp h]

/-- Witness for C4 at retry interval `3`. -/
theorem c4_consume_retry_policy_witness :
    consumeStep 3 .keyboardInterrupt = .terminated .keyboardInterrupt ∧
    consumeStep 0 .failure = .terminated .failure ∧
    consumeStep 3 .failure = .continueAfterSleep 3 := by
  have h := c4_consume_retry_policy 3
  exact ⟨h.1, (c4_consume_retry_policy 0).2.2.1, h.2.2.2 (by decide)⟩

theorem track_worker_status_idem (h : String) (b : Bool) (m : Metrics) :
    track_worker_status h b (track_worker_status h b m) =
      track_worker_status h b m := by
  unfold track_worker_status
  have hg : gaugeSet (gaugeSet m.celery_worker_up h (if b then 1 else 0)) h
      (if b then 1 else 0) =
      gaugeSet m.celery_worker_up h (if b then 1 else 0) := by
    funext k
    unfold gaugeSet
    by_cases hk : k = h <;> simp [hk]
  simp [hg]

/-- **C7**: processing `worker-online` sets the worker-up gauge for the
event's hostname to `1`, `worker-offline` sets it to `0`; the handler
touches nothing else in the registry (so it is independent of any tracked
state), and repeating it `n + 1` times leaves exactly the state reached
after one application — no accumulation. -/
theorem c7_worker_status_idempotent (h : String) (b : Bool) (m : Metrics)
    (n : ℕ) :
    ((track_worker_status h b m).celery_worker_up h =
      some (if b then 1 else 0)) ∧
    (∀ h2, h2 ≠ h → (track_worker_status h b m).celery_worker_up h2 =
      m.celery_worker_up h2) ∧
    ((track_worker_status h b m).state_counters = m.state_counters ∧
      (track_worker_status h b m).worker_tasks_active =
        m.worker_tasks_active ∧
      (track_worker_status h b m).celery_task_runtime =
        m.celery_task_runtime ∧
      (track_worker_status h b m).celery_task_queuetime =
        m.celery_task_queuetime ∧
      (track_worker_status h b m).queue_length = m.queue_length) ∧
    (track_worker_status h b)^[n + 1] m = track_worker_status h b m := by
  refine ⟨by simp [track_worker_status, gaugeSet], ?_,
    ⟨rfl, rfl, rfl, rfl, rfl⟩, ?_⟩
  · intro h2 hne
    simp [track_worker_status, gaugeSet, hne]
  · induction n with
    | zero => rfl
    | succ k ih =>
      rw [Function.iterate_succ_apply', ih, track_worker_status_idem]

/-- Witness for C7: online then checking the gauge, with three repetitions
collapsing to one. -/
theorem c7_worker_status_idempotent_witness :
    ((track_worker_status "w1" true Metrics.init).celery_worker_up "w1" =
      some 1) ∧
    (track_worker_status "w1" true)^[3] Metrics.init =
      track_worker_status "w1" true Metrics.init ∧
    ((track_worker_status "w1" false Metrics.init).celery_worker_up "w1" =
      some 0) := by
  have h1 := c7_worker_status_idempotent "w1" true Metrics.init 2
  have h0 := c7_worker_status_idempotent "w1" false Metrics.init 0
  exact ⟨h1.1, h1.2.2.2, h0.1⟩

/-- Counterexample to **C5** as stated: `"worker-online"` is an event type
that is not one of the eight task-lifecycle counter keys, yet when such an
event reaches the dispatcher no warning is logged and a metric value does
change (the worker-up gauge series for the hostname springs from absent to
`1`). -/
theorem c5_counterexample_worker_online :
    ("worker-online" ∉ taskEventTypes) ∧
    (dispatch ⟨"worker-online", "host1", ⟨"", "", "", "", none, 0⟩,
        ⟨true, none⟩, 0⟩ Metrics.init).2 = false ∧
    (dispatch ⟨"worker-online", "host1", ⟨"", "", "", "", none, 0⟩,
        ⟨true, none⟩, 0⟩ Metrics.init).1.celery_worker_up "host1" =
      some 1 ∧
    Metrics.init.celery_worker_up "host1" = none := by
  refine ⟨by decide, rfl, ?_, rfl⟩
  rfl

/-- **C5 (amended)**: when an event whose type has no registered handler at
all — neither one of the three worker-event types nor one of the eight
task-lifecycle counter keys — reaches the dispatcher, a warning is logged
and no metric is updated: the registry is returned unchanged. -/
theorem c5_unhandled_event_noop (e : EventData) (m : Metrics)
    (h : e.type ∉ handlerKeys) :
    dispatch e m = (m, true) := by
  have hmem : ¬ (e.type = "worker-heartbeat" ∨ e.type = "worker-online" ∨
      e.type = "worker-offline" ∨ e.type ∈ taskEventTypes) := by
    intro hc
    apply h
    unfold handlerKeys
    rcases hc with h1 | h1 | h1 | h1 <;> simp [h1]
  push_neg at hmem
  obtain ⟨h1, h2, h3, h4⟩ := hmem
  unfold dispatch
  simp [h1, h2, h3, h4]

/-- Witness for the amended C5: an unknown event type is dropped with a
warning and leaves the fresh registry untouched. -/
theorem c5_unhandled_event_noop_witness :
    dispatch ⟨"task-banana", "host1", ⟨"", "", "", "", none, 0⟩,
        ⟨true, none⟩, 0⟩ Metrics.init = (Metrics.init, true) :=
  c5_unhandled_event_noop _ Metrics.init (by decide)

/-! ### Sampler resilience -/

theorem monitorCycle_sleep (queues : List String) (interval : ℕ)
    (g : GaugeMap) (input : Option CycleData) :
    (monitorCycle queues interval g input).2.1 =
      cycleSleep queues interval input := by
  unfold monitorCycle cycleSleep
  cases input with
  | none => rfl
  | some data =>
    cases h : queueLengthCycle queues data.llen data.unacked <;> simp [h]

/-- **C6**: the sampling loop survives every failing cycle: with the running
flag `true` at the top of each scheduled cycle, every cycle executes — the
sleep trace has exactly one entry per cycle, `1` second (the fixed delay of
the exception handler) after a failing cycle and the configured interval
after a successful one — and the final gauge family is the fold of every
cycle's effect, so successful cycles after a failure still publish. -/
theorem c6_monitor_resilient (queues : List String) (interval : ℕ)
    (g : GaugeMap) (sched : List (Option CycleData)) :
    monitorRun queues interval g (sched.map (fun i => (true, i))) =
      (sched.foldl (fun acc i => (monitorCycle queues interval acc i).1) g,
        sched.map (cycleSleep queues interval)) := by
  induction sched generalizing g with
  | nil => rfl
  | cons input rest ih =>
    simp only [List.map_cons, List.foldl_cons, monitorRun, if_true]
    rw [ih]
    rw [monitorCycle_sleep]

/-! ### Counter monotonicity -/

theorem counterLe_refl (a : CounterMap) : counterLe a a :=
  fun _ _ v hv => ⟨v, hv, le_refl v⟩

theorem counterLe_trans {a b c : CounterMap} (h1 : counterLe a b)
    (h2 : counterLe b c) : counterLe a c := by
  intro k l v hv
  obtain ⟨w, hw, hvw⟩ := h1 k l v hv
  obtain ⟨x, hx, hwx⟩ := h2 k l w hw
  exact ⟨x, hx, le_trans hvw hwx⟩

theorem counterLe_counterInc (cs : CounterMap) (key : String) (l : Labels)
    (d : ℕ) : counterLe cs (counterInc cs key l d) := by
  intro k2 l2 v hv
  unfold counterInc
  by_cases h1 : k2 = key
  · subst h1
    by_cases h2 : l2 = l
    · subst h2
      exact ⟨(cs k2 l2).getD 0 + d, by simp, by simp [hv]⟩
    · exact ⟨v, by simp [h2, hv], le_refl v⟩
  · exact ⟨v, by simp [h1, hv], le_refl v⟩

theorem counterLe_counterLoopStep (et : String) (task : Task)
    (cs : CounterMap) (k : String) :
    counterLe cs (counterLoopStep et task cs k) := by
  unfold counterLoopStep
  by_cases h : k = et
  · simp only [h, if_true]
    exact counterLe_counterInc cs et _ 1
  · simp only [h, if_false]
    exact counterLe_counterInc cs k _ 0

theorem counterLe_counterFold (et : String) (task : Task)
    (L : List String) : ∀ cs : CounterMap,
    counterLe cs (L.foldl (counterLoopStep et task) cs) := by
  induction L with
  | nil => intro cs; exact counterLe_refl cs
  | cons a L ih =>
    intro cs
    exact counterLe_trans (counterLe_counterLoopStep et task cs a) (ih _)

theorem counterLe_dispatch (e : EventData) (m : Metrics) :
    counterLe m.state_counters (dispatch e m).1.state_counters := by
  unfold dispatch
  by_cases h1 : e.type = "worker-heartbeat"
  · simp only [h1, if_true]
    exact counterLe_refl _
  by_cases h2 : e.type = "worker-online"
  · simp only [h1, h2, if_true, if_false]
    exact counterLe_refl _
  by_cases h3 : e.type = "worker-offline"
  · simp only [h1, h2, h3, if_true, if_false]
    exact counterLe_refl _
  by_cases h4 : e.type ∈ taskEventTypes
  · simp only [h1, h2, h3, h4, if_true, if_false]
    rw [track_task_event_state_counters]
    exact counterLe_counterFold e.type e.mergedTask taskEventTypes
      m.state_counters
  · simp only [h1, h2, h3, h4, if_false]
    exact counterLe_refl _

/-- **C9**: across any finite stream of dispatched events, every
task-lifecycle counter series is monotonically non-decreasing: a series
that exists is never deleted and its value never drops — every handler only
increments counters, by one or by zero. -/
theorem c9_counters_monotone (es : List EventData) (m : Metrics) :
    counterLe m.state_counters (processEvents es m).state_counters := by
  induction es generalizing m with
  | nil => exact counterLe_refl _
  | cons e rest ih =>
    exact counterLe_trans (counterLe_dispatch e m) (ih (dispatch e m).1)

/-! ### Queue-depth computation -/

theorem tallyGet_tallyAdd (c : QueueTally) (key q : String) (d : ℕ) :
    tallyGet (tallyAdd c key d) q =
      if q = key then some ((tallyGet c key).getD 0 + d)
      else tallyGet c q := by
  induction c with
  | nil =>
    by_cases h : q = key
    · subst h
      simp [tallyAdd, tallyGet]
    · have h2 : ¬ key = q := fun he => h he.symm
      simp [tallyAdd, tallyGet, h, h2]
  | cons p rest ih =>
    obtain ⟨k2, v⟩ := p
    by_cases hk : k2 = key
    · subst hk
      by_cases hq : q = k2
      · subst hq
        simp [tallyAdd, tallyGet]
      · have hq2 : ¬ k2 = q := fun he => hq he.symm
        simp [tallyAdd, tallyGet, hq, hq2]
    · by_cases hq : q = k2
      · subst hq
        have hqk : ¬ q = key := hk
        simp [tallyAdd, tallyGet, hk, hqk]
      · have hq2 : ¬ k2 = q := fun he => hq he.symm
        simp [tallyAdd, tallyGet, hk, hq2, ih]

theorem tallyGet_eq_none (c : QueueTally) (q : String)
    (h : q ∉ tallyKeys c) : tallyGet c q = none := by
  induction c with
  | nil => rfl
  | cons p rest ih =>
    obtain ⟨k2, v⟩ := p
    simp only [tallyKeys, List.map_cons, List.mem_cons, not_or] at h
    obtain ⟨h1, h2⟩ := h
    have hk : ¬ k2 = q := fun he => h1 he.symm
    simp only [tallyGet, hk, if_false]
    exact ih h2

theorem tallyKeys_tallyAdd (c : QueueTally) (key : String) (d : ℕ) :
    ∀ x ∈ tallyKeys (tallyAdd c key d), x ∈ tallyKeys c ∨ x = key := by
  induction c with
  | nil =>
    intro x hx
    simp [tallyAdd, tallyKeys] at hx
    exact Or.inr hx
  | cons p rest ih =>
    obtain ⟨k2, v⟩ := p
    intro x hx
    by_cases hk : k2 = key
    · simp only [tallyAdd, hk, if_true, tallyKeys, List.map_cons,
        List.mem_cons] at hx ⊢
      rcases hx with h | h
      · exact Or.inl (Or.inl h)
      · exact Or.inl (Or.inr h)
    · simp only [tallyAdd, hk, if_false, tallyKeys, List.map_cons,
        List.mem_cons] at hx ⊢
      rcases hx with h | h
      · exact Or.inl (Or.inl h)
      · rcases ih x h with h2 | h2
        · exact Or.inl (Or.inr h2)
        · exact Or.inr h2

theorem tallyKeys_nodup_tallyAdd (c : QueueTally) (key : String) (d : ℕ)
    (h : (tallyKeys c).Nodup) : (tallyKeys (tallyAdd c key d)).Nodup := by
  induction c with
  | nil => simp [tallyAdd, tallyKeys]
  | cons p rest ih =>
    obtain ⟨k2, v⟩ := p
    simp only [tallyKeys, List.map_cons, List.nodup_cons] at h
    obtain ⟨hnm, hnd⟩ := h
    by_cases hk : k2 = key
    · simp only [tallyAdd, hk, if_true, tallyKeys, List.map_cons,
        List.nodup_cons]
      exact ⟨hk ▸ hnm, hnd⟩
    · simp only [tallyAdd, hk, if_false, tallyKeys, List.map_cons,
        List.nodup_cons]
      refine ⟨?_, ih hnd⟩
      intro hmem
      rcases tallyKeys_tallyAdd rest key d k2 hmem with h2 | h2
      · exact hnm h2
      · exact hk h2

theorem tallyUnacked_keys_nodup (unacked : List (List String)) :
    ∀ c c', tallyUnacked unacked c = some c' →
      (tallyKeys c).Nodup → (tallyKeys c').Nodup := by
  induction unacked with
  | nil =>
    intro c c' h hnd
    cases h
    exact hnd
  | cons data rest ih =>
    intro c c' h hnd
    cases hl : data.getLast? with
    | none =>
      simp only [tallyUnacked, hl] at h
      exact Option.noConfusion h
    | some queue =>
      simp only [tallyUnacked, hl] at h
      exact ih _ _ h (tallyKeys_nodup_tallyAdd c queue 1 hnd)

theorem tallyUnacked_get (unacked : List (List String)) :
    ∀ c c', tallyUnacked unacked c = some c' → ∀ q,
      tallyGet c' q =
        if unackedCount unacked q = 0 then tallyGet c q
        else some ((tallyGet c q).getD 0 + unackedCount unacked q) := by
  induction unacked with
  | nil =>
    intro c c' h q
    cases h
    simp [unackedCount]
  | cons data rest ih =>
    intro c c' h q
    cases hl : data.getLast? with
    | none =>
      simp only [tallyUnacked, hl] at h
      exact Option.noConfusion h
    | some queue =>
      simp only [tallyUnacked, hl] at h
      have hrec := ih _ _ h q
      have hadd := tallyGet_tallyAdd c queue q 1
      by_cases hq : q = queue
      · subst hq
        have hbeq : (data.getLast? == some q) = true := by
          rw [hl]
          simp
        have hcnt : unackedCount (data :: rest) q = unackedCount rest q + 1 := by
          simp [unackedCount, List.countP_cons, hbeq]
        rw [hrec, hadd, hcnt]
        simp only [eq_self_iff_true, if_true]
        have h1 : unackedCount rest q + 1 ≠ 0 := by omega
        rw [if_neg h1]
        split_ifs with h0
        · simp only [Option.some.injEq]
          omega
        · simp only [Option.getD_some, Option.some.injEq]
          omega
      · have hbeq : (data.getLast? == some q) = false := by
          rw [hl, beq_eq_false_iff_ne]
          intro he
          exact hq (Option.some.inj he).symm
        have hcnt : unackedCount (data :: rest) q = unackedCount rest q := by
          simp [unackedCount, List.countP_cons, hbeq]
        rw [hrec, hadd, hcnt]
        simp only [hq, if_false]

theorem tallyGet_llenFold (llen : String → ℕ) (queues : List String) :
    queues.Nodup → ∀ (c : QueueTally) (q : String),
      tallyGet (queues.foldl (fun acc q2 => tallyAdd acc q2 (llen q2)) c) q =
        if q ∈ queues then some ((tallyGet c q).getD 0 + llen q)
        else tallyGet c q := by
  induction queues with
  | nil =>
    intro _ c q
    simp
  | cons a rest ih =>
    intro hnd c q
    simp only [List.foldl_cons]
    rw [ih (List.nodup_cons.mp hnd).2, tallyGet_tallyAdd]
    by_cases hq : q = a
    · subst hq
      have hnm : q ∉ rest := (List.nodup_cons.mp hnd).1
      simp [hnm]
    · by_cases hmem : q ∈ rest
      · simp [hq, hmem, List.mem_cons]
      · simp [hq, hmem, List.mem_cons]

theorem tallyKeys_nodup_llenFold (llen : String → ℕ)
    (queues : List String) : ∀ c : QueueTally, (tallyKeys c).Nodup →
      (tallyKeys
        (queues.foldl (fun acc q2 => tallyAdd acc q2 (llen q2)) c)).Nodup := by
  induction queues with
  | nil => intro c h; exact h
  | cons a rest ih =>
    intro c h
    simp only [List.foldl_cons]
    exact ih _ (tallyKeys_nodup_tallyAdd c a (llen a) h)

theorem publishLengths_get (ls : QueueTally) :
    (tallyKeys ls).Nodup → ∀ (g : GaugeMap) (q : String),
      publishLengths g ls q =
        (tallyGet ls q).elim (g q) (fun v => some (v : ℤ)) := by
  induction ls with
  | nil => intro _ g q; rfl
  | cons p rest ih =>
    obtain ⟨k, v⟩ := p
    intro hnd g q
    simp only [tallyKeys, List.map_cons, List.nodup_cons] at hnd
    obtain ⟨hnm, hrest⟩ := hnd
    have heq : publishLengths g ((k, v) :: rest) =
        publishLengths (gaugeSet g k v) rest := rfl
    rw [heq, ih hrest]
    by_cases hq : q = k
    · subst hq
      have hz : tallyGet rest q = none := tallyGet_eq_none rest q hnm
      simp [tallyGet, hz, gaugeSet]
    · have hk2 : ¬ k = q := fun he => hq he.symm
      simp only [tallyGet, hk2, if_false]
      cases tallyGet rest q with
      | some w => rfl
      | none => simp [gaugeSet, hq]

theorem publishLengths_get_some (ls : QueueTally)
    (hnd : (tallyKeys ls).Nodup) (g : GaugeMap) (q : String) (v : ℕ)
    (h : tallyGet ls q = some v) :
    publishLengths g ls q = some (v : ℤ) := by
  rw [publishLengths_get ls hnd g q, h]
  rfl

theorem publishLengths_get_none (ls : QueueTally)
    (hnd : (tallyKeys ls).Nodup) (g : GaugeMap) (q : String)
    (h : tallyGet ls q = none) :
    publishLengths g ls q = g q := by
  rw [publishLengths_get ls hnd g q, h]
  rfl

/-- **C3**: in a successful sampling cycle (every unacked entry decodes to
a nonempty array) over distinct configured queues, the published depth of
every configured queue is its raw `llen` plus the number of unacked entries
whose final decoded field names it; a queue seen only in unacked entries is
published with just that tally, and a queue seen in neither keeps its
previous gauge value. -/
theorem c3_queue_depth (queues : List String) (hnd : queues.Nodup)
    (llen : String → ℕ) (unacked : List (List String)) (ls : QueueTally)
    (hcycle : queueLengthCycle queues llen unacked = some ls)
    (g : GaugeMap) (q : String) :
    (q ∈ queues →
      publishLengths g ls q =
        some ((llen q + unackedCount unacked q : ℕ) : ℤ)) ∧
    (q ∉ queues → unackedCount unacked q ≠ 0 →
      publishLengths g ls q = some ((unackedCount unacked q : ℕ) : ℤ)) ∧
    (q ∉ queues → unackedCount unacked q = 0 →
      publishLengths g ls q = g q) := by
  cases hta : tallyUnacked unacked [] with
  | none =>
    simp only [queueLengthCycle, hta] at hcycle
    exact Option.noConfusion hcycle
  | some c =>
    simp only [queueLengthCycle, hta, Option.some.injEq] at hcycle
    subst hcycle
    have hcnodup : (tallyKeys c).Nodup :=
      tallyUnacked_keys_nodup unacked [] c hta (by simp [tallyKeys])
    have hlsnodup := tallyKeys_nodup_llenFold llen queues c hcnodup
    have hfold := tallyGet_llenFold llen queues hnd c q
    have hun := tallyUnacked_get unacked [] c hta q
    have hnil : tallyGet ([] : QueueTally) q = none := rfl
    rw [hnil] at hun
    have hgd : (tallyGet c q).getD 0 = unackedCount unacked q := by
      rw [hun]
      split_ifs with h0
      · simp [h0]
      · simp
    refine ⟨?_, ?_, ?_⟩
    · intro hmem
      have hsome : tallyGet
          (queues.foldl (fun acc q2 => tallyAdd acc q2 (llen q2)) c) q =
          some (llen q + unackedCount unacked q) := by
        rw [hfold, if_pos hmem, hgd, Nat.add_comm]
      rw [publishLengths_get_some _ hlsnodup g q _ hsome]
    · intro hmem h0
      have hsome : tallyGet
          (queues.foldl (fun acc q2 => tallyAdd acc q2 (llen q2)) c) q =
          some (unackedCount unacked q) := by
        rw [hfold, if_neg hmem, hun, if_neg h0]
        simp
      rw [publishLengths_get_some _ hlsnodup g q _ hsome]
    · intro hmem h0
      have hnone : tallyGet
          (queues.foldl (fun acc q2 => tallyAdd acc q2 (llen q2)) c) q =
          none := by
        rw [hfold, if_neg hmem, hun, if_pos h0]
      exact publishLengths_get_none _ hlsnodup g q hnone

/-- Witness for C3 at the spec's example: queue `a` configured with raw
length `3`, unacked entries tagged `a`, `a`, `b` — published depths
`a = 5`, `b = 1`. -/
theorem c3_queue_depth_witness :
    publishLengths (fun _ => none) [("a", 5), ("b", 1)] "a" = some 5 ∧
    publishLengths (fun _ => none) [("a", 5), ("b", 1)] "b" = some 1 := by
  have ha := (c3_queue_depth ["a"] (by decide)
      (fun q => if q = "a" then 3 else 0)
      [["x", "a"], ["y", "a"], ["z", "b"]] [("a", 5), ("b", 1)] (by decide)
      (fun _ => none) "a").1 (by decide)
  have hb := (c3_queue_depth ["a"] (by decide)
      (fun q => if q = "a" then 3 else 0)
      [["x", "a"], ["y", "a"], ["z", "b"]] [("a", 5), ("b", 1)] (by decide)
      (fun _ => none) "b").2.1 (by decide) (by decide)
  constructor
  · rw [ha]
    decide
  · rw [hb]
    decide

end CeleryExporter
